import Mathlib

/-!
Shallow embedding of the `c-enum` code generator.

The crate has two entry points that turn an enum-like specification into a
newtype wrapper plus named constants:

* the declarative macros `c_enum!` / `__c_enum_no_debug!` / `__c_enum_impl!`
  in `src/lib.rs`, and
* the attribute-style expander `expand` in `src/c_enum.rs`.

The definitions below embed, from the source, the value-resolution pass of
each entry point, the `variant_label` lookup, the two `Debug` formatters and
the `From` conversions.  Scalar underlying types are modelled by an arbitrary
Lean type `α` (instantiated at `Nat` for the `u64`/`u32`/`u8` test enums and
at `Int` for the attribute expander's default `isize`); none of the concrete
specifications exercised here comes near an integer-width boundary, so no
modular reduction is needed.
-/

/-- One entry of an enum specification: a label and an optional explicit
value (`$field:ident $( = $value:expr )?` in `c_enum!`;
`variant.discriminant` in the attribute expander).  Explicit values are
modelled already evaluated. -/
structure EntrySpec (α : Type) where
  label : String
  value : Option α
deriving DecidableEq

/-- An enum specification: the type name and the ordered entries. -/
structure EnumSpec (α : Type) where
  name : String
  entries : List (EntrySpec α)
deriving DecidableEq

/-- The generated newtype wrapper: a single public field over the underlying
type (`$vis struct $name(pub $inner);` / `#vis struct #ident(#repr);`). -/
structure CEnumValue (α : Type) where
  val : α
deriving DecidableEq

/-- `impl From<$inner> for $name` (src/lib.rs, `__c_enum_no_debug!`):
wraps the value unconditionally, `Self(value)`. -/
def fromInner {α : Type} (v : α) : CEnumValue α := ⟨v⟩

/-- `impl From<$name> for $inner` (src/lib.rs): extracts the stored field,
`value.0`. -/
def intoInner {α : Type} (e : CEnumValue α) : α := e.val

/-- `pub const fn new(value: #repr) -> Self` emitted by the attribute
expander (src/c_enum.rs): `Self(value)`.  Its `From<#repr>` impl calls
`Self::new(value)`. -/
def CEnumValue.new {α : Type} (v : α) : CEnumValue α := ⟨v⟩

/-- `__c_enum_impl!(impl(first_expr) e1, e2, ...)` (src/lib.rs): yields its
first argument.  At every use site it is applied to the argument list
`$( $fvalue, )? $( $pvalue, )? 0`, so the selected expression is the entry's
own explicit value if present, otherwise the previous list entry's explicit
value if present, otherwise the literal `0` (modelled by `zero`). -/
def firstExpr {α : Type} (fvalue pvalue : Option α) (zero : α) : α :=
  match fvalue with
  | some v => v
  | none =>
    match pvalue with
    | some v => v
    | none => zero

/-- The `impl(decl_variants, ..)` recursion of `__c_enum_impl!`
(src/lib.rs): walks the field list and the shifted previous-entry list in
lockstep, emitting for each field a constant whose value is
`first_expr($fvalue?, $pvalue?, 0)`.  The recursion stops when the field
list is empty; the second list is one element longer at every call, so its
empty case is unreachable from `declResolve`. -/
def declVariants {α : Type} (zero : α) :
    List (Option α) → List (Option α) → List α
  | [], _ => []
  | _ :: _, [] => []
  | f :: fs, p :: ps => firstExpr f p zero :: declVariants zero fs ps

/-- Value resolution of the declarative entry point
(`__c_enum_no_debug!`, src/lib.rs): `decl_variants` is invoked with the
field list and with a second list consisting of `__dummy = 0` followed by
the same fields, so each field is paired with its predecessor (the first
field with the dummy carrying explicit `0`). -/
def declResolve {α : Type} (zero : α) (values : List (Option α)) : List α :=
  declVariants zero values (some zero :: values)

/-- The named constants generated by the declarative entry point: each label
paired with its resolved value, in declaration order. -/
def declConstants {α : Type} (zero : α) (e : EnumSpec α) : List (String × α) :=
  (e.entries.map (·.label)).zip (declResolve zero (e.entries.map (·.value)))

/-- `fn variant_label` from `impl CEnum for $name` (src/lib.rs):
a `match` on the stored value whose arms are, in declaration order,
`value if Self::$field.0 == *value => ::core::stringify!($name)`, with a
final arm returning `None`.  Note the matched arm yields the stringified
*enum* name `$name`, and every arm yields that same string. -/
def variant_label {α : Type} [DecidableEq α] (zero : α) (e : EnumSpec α)
    (v : α) : Option String :=
  match (declConstants zero e).find? (fun c => c.2 = v) with
  | some _ => some e.name
  | none => none

/-- The output of a `Debug` formatter, abstracted from the concrete
formatter calls: either `write_fmt("{}::{}", ..)` with a type name and a
label, or `debug_tuple(name).field(&value)` with the type name and the raw
stored value. -/
inductive DebugOut (α : Type) where
  | labeled (tyName label : String)
  | raw (tyName : String) (value : α)
deriving DecidableEq

/-- The `Debug` impl emitted by `c_enum!` (src/lib.rs): if
`self.variant_label()` is `Some(variant)` it writes
`"{}::{}", stringify!($name), variant`; otherwise it writes
`debug_tuple(stringify!($name)).field(&self.0)`. -/
def declDebugFmt {α : Type} [DecidableEq α] (zero : α) (e : EnumSpec α)
    (v : α) : DebugOut α :=
  match variant_label zero e v with
  | some lbl => DebugOut.labeled e.name lbl
  | none => DebugOut.raw e.name v

/-- The value-resolution loop of the attribute expander (src/c_enum.rs,
lines 62–70), with `prev` the resolved value of the previous constant:
an explicit discriminant is used as written; otherwise the first entry
(`None if i == 0`) gets the literal `0`; otherwise the entry gets
`Self::#prev.0 + 1`, the previous constant's stored field plus one. -/
def attrResolveAux (prev : Option Int) : List (Option Int) → List Int
  | [] => []
  | e :: rest =>
    let v : Int :=
      match e, prev with
      | some x, _ => x
      | none, none => 0
      | none, some p => p + 1
    v :: attrResolveAux (some v) rest

/-- Value resolution of the attribute entry point: the loop starts with no
previous constant. -/
def attrResolve (values : List (Option Int)) : List Int :=
  attrResolveAux none values

/-- The named constants generated by the attribute expander. -/
def attrConstants (e : EnumSpec Int) : List (String × Int) :=
  (e.entries.map (·.label)).zip (attrResolve (e.entries.map (·.value)))

/-- The `Debug` impl emitted by the attribute expander (src/c_enum.rs,
lines 126–142): arms `Self(value) if Self::#fields.0 == *value =>
f.write_str("{ident}::{field}")` in declaration order, else
`debug_tuple(ident).field(value)`. -/
def attrDebugFmt (e : EnumSpec Int) (v : Int) : DebugOut Int :=
  match (attrConstants e).find? (fun c => c.2 = v) with
  | some c => DebugOut.labeled e.name c.1
  | none => DebugOut.raw e.name v

/-- The `Software` test enum from `tests/basic.rs` (underlying type `u64`,
modelled by `Nat`): entries `CPU_CYCLES`, `INSTRUCTIONS = 2`,
`CACHE_REFERENCES`, `CACHE_MISSES`, `BRANCH_INSTRUCTIONS = 5`,
`Lowercase`. -/
def Software : EnumSpec Nat :=
  ⟨"Software",
    [⟨"CPU_CYCLES", none⟩, ⟨"INSTRUCTIONS", some 2⟩, ⟨"CACHE_REFERENCES", none⟩,
     ⟨"CACHE_MISSES", none⟩, ⟨"BRANCH_INSTRUCTIONS", some 5⟩, ⟨"Lowercase", none⟩]⟩

/-- The same entry list with `Int` values, for feeding the attribute entry
point (whose default underlying type `isize` is modelled by `Int`). -/
def SoftwareInt : EnumSpec Int :=
  ⟨"Software",
    [⟨"CPU_CYCLES", none⟩, ⟨"INSTRUCTIONS", some 2⟩, ⟨"CACHE_REFERENCES", none⟩,
     ⟨"CACHE_MISSES", none⟩, ⟨"BRANCH_INSTRUCTIONS", some 5⟩, ⟨"Lowercase", none⟩]⟩

/-- The `Duplicates` test enum from `tests/basic.rs` (underlying type `u8`,
modelled by `Nat`): `ITEM1 = 2`, `ITEM2 = 2`. -/
def Duplicates : EnumSpec Nat :=
  ⟨"Duplicates", [⟨"ITEM1", some 2⟩, ⟨"ITEM2", some 2⟩]⟩

/-- The `#[repr]` attribute as the attribute expander inspects it
(src/c_enum.rs, lines 39–58): a `Meta::List` whose tokens parse as a type,
a `Meta::List` whose tokens do not, or a non-list meta form. -/
inductive ReprMeta where
  | listTy (ty : String)
  | listBad
  | otherMeta
deriving DecidableEq

/-- The shape of the parsed `DeriveInput` data that `expand` matches on
(src/c_enum.rs, lines 23–37); enum data carries the variants' optional
explicit discriminants, already evaluated. -/
inductive InputData where
  | enumData (variants : List (Option Int))
  | structData
  | unionData
deriving DecidableEq

/-- The error cases of `expand`; each constructor corresponds to one
`Error::new_spanned` site in src/c_enum.rs and hence to the construct the
error is reported at (the attribute arguments, the generics, the `struct` /
`union` token, or the `#[repr]` annotation's tokens). -/
inductive ExpandError where
  | unexpectedArgs
  | genericEnums
  | onlyEnumsStruct
  | onlyEnumsUnion
  | reprUnparsable
  | reprNotList
deriving DecidableEq

/-- The input of the attribute expander as `expand` examines it: whether
the attribute argument stream is non-empty, whether `generics.gt_token`
is present, the data shape, and the first `#[repr]` attribute if any. -/
structure AttrInput where
  attrNonempty : Bool
  hasGenerics : Bool
  data : InputData
  reprAttr : Option ReprMeta
deriving DecidableEq

/-- `pub fn expand` (src/c_enum.rs): rejects non-empty attribute arguments,
then generic parameters, then non-enum data; then reads the `#[repr]`
annotation (defaulting the representation to `isize` when absent, erroring
when it is not a parsable type list); on success produces the chosen
representation and the resolved constant values. -/
def expand (inp : AttrInput) : Except ExpandError (String × List Int) :=
  if inp.attrNonempty then Except.error ExpandError.unexpectedArgs
  else if inp.hasGenerics then Except.error ExpandError.genericEnums
  else
    match inp.data with
    | InputData.structData => Except.error ExpandError.onlyEnumsStruct
    | InputData.unionData => Except.error ExpandError.onlyEnumsUnion
    | InputData.enumData variants =>
      match inp.reprAttr with
      | some (ReprMeta.listTy ty) => Except.ok (ty, attrResolve variants)
      | some ReprMeta.listBad => Except.error ExpandError.reprUnparsable
      | some ReprMeta.otherMeta => Except.error ExpandError.reprNotList
      | none => Except.ok ("isize", attrResolve variants)

theorem declVariants_length {α : Type} (zero : α) (vs ps : List (Option α)) :
    (declVariants zero vs ps).length = min vs.length ps.length := by
  induction vs generalizing ps with
  | nil => simp [declVariants]
  | cons f fs ih =>
    cases ps with
    | nil => simp [declVariants]
    | cons p ps => simp [declVariants, ih, Nat.succ_min_succ]

theorem declResolve_length {α : Type} (zero : α) (vs : List (Option α)) :
    (declResolve zero vs).length = vs.length := by
  rw [declResolve, declVariants_length]
  simp

theorem attrResolveAux_succ (prev : Option Int) (vs : List (Option Int)) (i : Nat)
    (h : i + 1 < vs.length) (hnone : vs.getD (i + 1) none = none) :
    (attrResolveAux prev vs).getD (i + 1) 0 = (attrResolveAux prev vs).getD i 0 + 1 := by
  induction vs generalizing prev i with
  | nil => simp at h
  | cons e rest ih =>
    cases i with
    | zero =>
      cases rest with
      | nil => simp at h
      | cons e2 rest2 =>
        have he2 : e2 = none := by simpa using hnone
        subst he2
        simp [attrResolveAux]
    | succ i =>
      have h2 : i + 1 < rest.length := by
        simp at h
        omega
      have hn2 : rest.getD (i + 1) none = none := by simpa using hnone
      simpa [attrResolveAux] using ih _ i h2 hn2

/-- C1: the claim says an unspecified non-first entry resolves to the
previous entry's resolved value plus one, in both entry points.  Evaluating
the code on the two-entry spec `[A, B]` (both unspecified): the declarative
entry point resolves `B` to `0`, not `1` — `first_expr` falls through to the
literal `0` because the previous entry has no explicit value and no `+ 1` is
ever applied — while the attribute entry point resolves `B` to `1` as the
claim states.  This contradicts the crate's own documentation and
`tests/basic.rs`. -/
theorem c1_decl_auto_increment_eval :
    declResolve (0 : Nat) [none, none] = [0, 0]
  ∧ declResolve (0 : Nat) [none, none] ≠ [0, 1]
  ∧ attrResolve [none, none] = [0, 1] := by decide

/-- C2: the claim says `variant_label` returns the matching entry's declared
label.  Evaluating the code on `Software::CPU_CYCLES` (stored value `0`):
the match arm yields `stringify!($name)` — the enum name — so the result is
`Some("Software")`, not the `Some("CPU_CYCLES")` asserted by
`tests/basic.rs::verify_variant_label`. -/
theorem c2_variant_label_eval :
    variant_label (0 : Nat) Software 0 = some "Software"
  ∧ variant_label (0 : Nat) Software 0 ≠ some "CPU_CYCLES" := by decide

/-- C3: the claim (and `tests/basic.rs`) gives the Software scenario the
resolved values `[0, 2, 3, 4, 5, 6]`, `Lowercase ≠ BRANCH_INSTRUCTIONS` and
`variant_label(CPU_CYCLES) = "CPU_CYCLES"`.  Evaluating the code: the
resolved values are `[0, 2, 2, 0, 5, 5]`, the constants for `Lowercase` and
`BRANCH_INSTRUCTIONS` are the equal wrappers of `5`, and the label lookup
at `0` yields the enum name instead of `"CPU_CYCLES"`. -/
theorem c3_software_scenario_eval :
    declConstants (0 : Nat) Software =
      [("CPU_CYCLES", 0), ("INSTRUCTIONS", 2), ("CACHE_REFERENCES", 2),
       ("CACHE_MISSES", 0), ("BRANCH_INSTRUCTIONS", 5), ("Lowercase", 5)]
  ∧ (declConstants (0 : Nat) Software).map (·.2) ≠ [0, 2, 3, 4, 5, 6]
  ∧ fromInner (((declConstants (0 : Nat) Software).getD 5 ("", 0)).2)
      = fromInner (((declConstants (0 : Nat) Software).getD 4 ("", 0)).2)
  ∧ variant_label (0 : Nat) Software 0 ≠ some "CPU_CYCLES" := by decide

/-- C4: extracting the underlying value from the wrapper constructed from
`v` yields `v` again, for the declarative entry point's `From` impl and for
the attribute entry point's `new`-based construction. -/
theorem c4_round_trip (α : Type) (v : α) :
    intoInner (fromInner v) = v ∧ intoInner (CEnumValue.new v) = v :=
  ⟨rfl, rfl⟩

/-- C10: in the other direction, constructing from the extracted underlying
value yields an instance with the same stored value, for both entry
points. -/
theorem c10_reverse_round_trip (α : Type) (e : CEnumValue α) :
    (fromInner (intoInner e)).val = e.val
  ∧ (CEnumValue.new (intoInner e)).val = e.val :=
  ⟨rfl, rfl⟩

/-- C5: construction from any underlying value is total (the round trip
holds unconditionally), and when the value equals no declared entry's
resolved value the label lookup returns `none` and the `Debug` formatter
falls to the raw branch, showing the type name and the stored value. -/
theorem c5_open_construction (α : Type) [DecidableEq α] (zero : α)
    (e : EnumSpec α) (v : α) (h : v ∉ (declConstants zero e).map Prod.snd) :
    intoInner (fromInner v) = v
  ∧ variant_label zero e v = none
  ∧ declDebugFmt zero e v = DebugOut.raw e.name v := by
  have hf : (declConstants zero e).find? (fun c => c.2 = v) = none := by
    rw [List.find?_eq_none]
    intro c hc hcv
    exact h (List.mem_map.mpr ⟨c, hc, of_decide_eq_true hcv⟩)
  refine ⟨rfl, ?_, ?_⟩
  · rw [variant_label, hf]
  · rw [declDebugFmt, variant_label, hf]

/-- Witness for C5 at the `Software` spec and the undeclared value `100`. -/
theorem c5_open_construction_witness :
    (100 : Nat) ∉ (declConstants (0 : Nat) Software).map Prod.snd
  ∧ (intoInner (fromInner (100 : Nat)) = 100
     ∧ variant_label (0 : Nat) Software 100 = none
     ∧ declDebugFmt (0 : Nat) Software 100 = DebugOut.raw "Software" 100) :=
  ⟨by decide, c5_open_construction Nat 0 Software 100 (by decide)⟩

/-- C6: the claim says the `Debug` formatter renders
`"<EnumName>::<Label>"` when a label is found.  Evaluating the declarative
entry point's formatter on `Software` at stored value `0`: because
`variant_label` yields the enum name, it renders `Software::Software`
rather than `Software::CPU_CYCLES`; the attribute entry point's inlined
formatter does render the declared label. -/
theorem c6_debug_labeled_eval :
    declDebugFmt (0 : Nat) Software 0 = DebugOut.labeled "Software" "Software"
  ∧ declDebugFmt (0 : Nat) Software 0 ≠ DebugOut.labeled "Software" "CPU_CYCLES"
  ∧ attrDebugFmt SoftwareInt 0 = DebugOut.labeled "Software" "CPU_CYCLES" := by
  decide

/-- C7: the declarative entry point performs no uniqueness check —
resolution is total and emits one constant per entry regardless of repeated
values — and two constants with equal resolved values are equal instances
under the wrapper's (structural) equality. -/
theorem c7_duplicates_legal (α : Type) (zero : α) (vs : List (Option α))
    (i j : Nat) (hi : i < (declResolve zero vs).length)
    (hj : j < (declResolve zero vs).length)
    (h : (declResolve zero vs).get ⟨i, hi⟩ = (declResolve zero vs).get ⟨j, hj⟩) :
    (declResolve zero vs).length = vs.length
  ∧ fromInner ((declResolve zero vs).get ⟨i, hi⟩)
      = fromInner ((declResolve zero vs).get ⟨j, hj⟩) :=
  ⟨declResolve_length zero vs, congrArg fromInner h⟩

/-- Witness for C7 at the `Duplicates` spec `ITEM1 = 2, ITEM2 = 2` from
`tests/basic.rs`. -/
theorem c7_duplicates_legal_witness :
    (declResolve (0 : Nat) (Duplicates.entries.map (·.value))).length = 2
  ∧ fromInner (2 : Nat) = fromInner (2 : Nat) := by
  have h0 : 0 < (declResolve (0 : Nat) (Duplicates.entries.map (·.value))).length := by
    decide
  have h1 : 1 < (declResolve (0 : Nat) (Duplicates.entries.map (·.value))).length := by
    decide
  have heq : (declResolve (0 : Nat) (Duplicates.entries.map (·.value))).get ⟨0, h0⟩
      = (declResolve (0 : Nat) (Duplicates.entries.map (·.value))).get ⟨1, h1⟩ := rfl
  have h := c7_duplicates_legal Nat 0 (Duplicates.entries.map (·.value)) 0 1 h0 h1 heq
  exact ⟨h.1, h.2⟩

/-- C8: the attribute expander rejects, before producing any output, inputs
whose data is a struct or union, inputs with generic parameters, and enum
inputs whose `#[repr]` annotation is not a parsable type list; with the
attribute arguments empty, each rejection carries the error constructor
tied to the offending construct's span. -/
theorem c8_attr_rejections (a g : Bool) (d : InputData) (r : Option ReprMeta) :
    ((d = InputData.structData ∨ d = InputData.unionData ∨ g = true) →
       ∃ err, expand ⟨a, g, d, r⟩ = Except.error err)
  ∧ (g = true → expand ⟨false, g, d, r⟩ = Except.error ExpandError.genericEnums)
  ∧ (d = InputData.structData →
       expand ⟨false, false, d, r⟩ = Except.error ExpandError.onlyEnumsStruct)
  ∧ (d = InputData.unionData →
       expand ⟨false, false, d, r⟩ = Except.error ExpandError.onlyEnumsUnion)
  ∧ (∀ vs, d = InputData.enumData vs → r = some ReprMeta.listBad →
       expand ⟨false, false, d, r⟩ = Except.error ExpandError.reprUnparsable)
  ∧ (∀ vs, d = InputData.enumData vs → r = some ReprMeta.otherMeta →
       expand ⟨false, false, d, r⟩ = Except.error ExpandError.reprNotList) := by
  refine ⟨?_, ?_, ?_, ?_, ?_, ?_⟩
  · intro h
    cases a with
    | true => exact ⟨ExpandError.unexpectedArgs, rfl⟩
    | false =>
      cases g with
      | true => exact ⟨ExpandError.genericEnums, rfl⟩
      | false =>
        rcases h with h | h | h
        · subst h; exact ⟨ExpandError.onlyEnumsStruct, rfl⟩
        · subst h; exact ⟨ExpandError.onlyEnumsUnion, rfl⟩
        · exact absurd h (by simp)
  · intro hg; subst hg; rfl
  · intro hd; subst hd; rfl
  · intro hd; subst hd; rfl
  · intro vs hd hr; subst hd; subst hr; rfl
  · intro vs hd hr; subst hd; subst hr; rfl

/-- Witness for C8: a struct input with empty attribute arguments is
rejected at the struct token. -/
theorem c8_attr_rejections_witness :
    expand ⟨false, false, InputData.structData, none⟩
      = Except.error ExpandError.onlyEnumsStruct :=
  (c8_attr_rejections false false InputData.structData none).2.2.1 rfl

/-- C9: with no `#[repr]` annotation the attribute expander chooses `isize`
as the underlying type, and every unspecified non-first entry resolves to
the previous constant's stored value plus one. -/
theorem c9_attr_isize_and_increment (vs : List (Option Int)) (i : Nat)
    (h : i + 1 < vs.length) (hnone : vs.getD (i + 1) none = none) :
    expand ⟨false, false, InputData.enumData vs, none⟩
      = Except.ok ("isize", attrResolve vs)
  ∧ (attrResolve vs).getD (i + 1) 0 = (attrResolve vs).getD i 0 + 1 :=
  ⟨rfl, attrResolveAux_succ none vs i h hnone⟩

/-- Witness for C9 at the two-entry spec `[A, B]`, both unspecified. -/
theorem c9_attr_isize_and_increment_witness :
    (0 + 1 < ([none, none] : List (Option Int)).length
       ∧ ([none, none] : List (Option Int)).getD (0 + 1) none = none)
  ∧ expand ⟨false, false, InputData.enumData [none, none], none⟩
      = Except.ok ("isize", attrResolve [none, none])
  ∧ (attrResolve [none, none]).getD (0 + 1) 0 = (attrResolve [none, none]).getD 0 0 + 1 :=
  ⟨⟨by decide, by decide⟩,
   (c9_attr_isize_and_increment [none, none] 0 (by decide) (by decide)).1,
   (c9_attr_isize_and_increment [none, none] 0 (by decide) (by decide)).2⟩
